import Mathlib

/-
Verification of the greenops asynchronous job orchestration subsystem.

The definitions below are a shallow embedding of the Go source:
  pkg/jobs.go        (src/unnamed/part_003, the current revision)
  cmd/main.go        (API handler: submission, GET /jobs/id)
  cmd/worker/main.go (worker finalization check)
  cmd/cli/main.go    (client polling loop)
DynamoDB is modelled per job record; timestamps are integers supplied by
callers; the serialized result payloads are opaque strings.
-/

namespace GreenOps

/-- JobStatus from pkg/jobs.go: pending, processing, completed, failed. -/
inductive JobStatus
  | pending
  | processing
  | completed
  | failed
deriving DecidableEq

/-- A report item (pkg ReportItem); the analyzer output fields are opaque
here, only emptiness of the whole object matters to the job store. -/
structure ReportItem where
  resourceType : String := ""
  payload : String := ""
  analysis : String := ""
deriving DecidableEq

/-- IsEmptyObject from pkg/jobs.go: the JSON encoding of the struct is
an empty object exactly when every field is empty. -/
def IsEmptyObject (r : ReportItem) : Bool :=
  r.resourceType = "" && r.payload = "" && r.analysis = ""

/-- JobInfo from pkg/jobs.go. `results` is an Option because the DynamoDB
attribute is marked omitempty: an empty list is dropped on marshalling, so
the stored record may lack the attribute entirely (which is why
UpdateJobProgress probes for it before choosing its update expression). -/
structure JobInfo where
  jobID : String
  status : JobStatus
  createdAt : Int
  updatedAt : Int
  completedAt : Int
  totalItems : Nat
  completedItems : Nat
  failedItems : Nat
  results : Option (List ReportItem)
  resourceTypes : List String
  expirationTime : Int
deriving DecidableEq

/-- The results list as observed by GetJob: an absent attribute reads back
as the empty list. -/
def JobInfo.resultsList (job : JobInfo) : List ReportItem :=
  job.results.getD []

/-- CreateJob from pkg/jobs.go. The fresh uuid is passed in as `jobID`,
the clock as `now`; TTL is seven days; counters are zeroed and the empty
results list is dropped by omitempty, so the record starts without the
attribute. -/
def createJob (jobID : String) (resourceTypes : List String) (itemCount : Nat)
    (now : Int) : JobInfo :=
  { jobID := jobID
    status := .pending
    createdAt := now
    updatedAt := now
    completedAt := 0
    totalItems := itemCount
    completedItems := 0
    failedItems := 0
    results := none
    resourceTypes := resourceTypes
    expirationTime := now + 7 * 24 * 60 * 60 }

/-- UpdateJobStatus from pkg/jobs.go: an unconditional write of the status
and updated_at, stamping completed_at when the new status is terminal.
There is no condition expression guarding against overwriting a terminal
status. -/
def updateJobStatus (job : JobInfo) (status : JobStatus) (now : Int) : JobInfo :=
  let j := { job with status := status, updatedAt := now }
  if status = .completed ∨ status = .failed then
    { j with completedAt := now }
  else
    j

/-- A DynamoDB call issued by a job-store operation. -/
inductive StoreCall
  | getItem
  | updateItem
deriving DecidableEq

/-- UpdateJobProgress from pkg/jobs.go (current revision), returning the
updated record together with the sequence of DynamoDB calls it issues.
`encodeOk` stands for attributevalue.MarshalMap of the result succeeding.
On success with a non-empty result the code first issues a GetItem
(projecting the results attribute) to decide between list_append on the
existing list and list_append on a fresh empty list; on marshal failure it
falls back to a count-only update that still increments completed_items. -/
def updateJobProgressTrace (job : JobInfo) (success : Bool) (result : ReportItem)
    (encodeOk : Bool) (now : Int) : JobInfo × List StoreCall :=
  if success then
    if !(IsEmptyObject result) then
      if encodeOk then
        let newResults :=
          match job.results with
          | some rs => some (rs ++ [result])
          | none => some [result]
        ({ job with
            updatedAt := now
            completedItems := job.completedItems + 1
            results := newResults },
          [.getItem, .updateItem])
      else
        ({ job with
            updatedAt := now
            completedItems := job.completedItems + 1 },
          [.getItem, .updateItem])
    else
      ({ job with
          updatedAt := now
          completedItems := job.completedItems + 1 },
        [.updateItem])
  else
    ({ job with
        updatedAt := now
        failedItems := job.failedItems + 1 },
      [.updateItem])

/-- The record produced by UpdateJobProgress. -/
def updateJobProgress (job : JobInfo) (success : Bool) (result : ReportItem)
    (encodeOk : Bool) (now : Int) : JobInfo :=
  (updateJobProgressTrace job success result encodeOk now).1

/-- The final status computed by both finalization sites (worker and
server force path): completed unless failed_items is positive and equals
total_items. -/
def finalJobStatus (job : JobInfo) : JobStatus :=
  if 0 < job.failedItems ∧ job.failedItems = job.totalItems then
    .failed
  else
    .completed

/-- The finalization check a worker runs after recording an outcome
(cmd/worker/main.go): if completed+failed has reached total and the
re-read status is not already terminal, write the final status;
otherwise leave the job alone. -/
def finalizeWorkerCheck (job : JobInfo) (now : Int) : JobInfo :=
  if job.totalItems ≤ job.completedItems + job.failedItems ∧
      job.status ≠ .completed ∧ job.status ≠ .failed then
    updateJobStatus job (finalJobStatus job) now
  else
    job

/-- The HTTP response of HandleJobStatus (cmd/main.go): 404 when the job
is unknown, a 200 body carrying the five job fields plus the results
array, or a 202 progress body carrying the five fields and no results. -/
inductive JobStatusResponse
  | notFound
  | okWithResults (jobID : String) (status : JobStatus)
      (totalItems completedItems failedItems : Nat) (results : List ReportItem)
  | acceptedNoResults (jobID : String) (status : JobStatus)
      (totalItems completedItems failedItems : Nat)
deriving DecidableEq

/-- The HTTP status code of a HandleJobStatus response. -/
def JobStatusResponse.code : JobStatusResponse → Nat
  | .notFound => 404
  | .okWithResults .. => 200
  | .acceptedNoResults .. => 202

/-- Whether the response body carries a results field. -/
def JobStatusResponse.hasResults : JobStatusResponse → Bool
  | .okWithResults .. => true
  | _ => false

/-- The job_id field of the response body, when present. -/
def JobStatusResponse.bodyJobID : JobStatusResponse → Option String
  | .notFound => none
  | .okWithResults j .. => some j
  | .acceptedNoResults j .. => some j

/-- The status field of the response body, when present. -/
def JobStatusResponse.bodyStatus : JobStatusResponse → Option JobStatus
  | .notFound => none
  | .okWithResults _ s .. => some s
  | .acceptedNoResults _ s .. => some s

/-- The total_items field of the response body, when present. -/
def JobStatusResponse.bodyTotal : JobStatusResponse → Option Nat
  | .notFound => none
  | .okWithResults _ _ t .. => some t
  | .acceptedNoResults _ _ t .. => some t

/-- The completed_items field of the response body, when present. -/
def JobStatusResponse.bodyCompleted : JobStatusResponse → Option Nat
  | .notFound => none
  | .okWithResults _ _ _ c .. => some c
  | .acceptedNoResults _ _ _ c .. => some c

/-- The failed_items field of the response body, when present. -/
def JobStatusResponse.bodyFailed : JobStatusResponse → Option Nat
  | .notFound => none
  | .okWithResults _ _ _ _ f .. => some f
  | .acceptedNoResults _ _ _ _ f .. => some f

/-- The force-completion block of HandleJobStatus (cmd/main.go): when the
flag is set, the job reads as processing and all items are accounted for,
write the final status (completed unless every item failed); otherwise
leave the job as read. -/
def forceCompleteStep (job : JobInfo) (forceComplete : Bool) (now : Int) : JobInfo :=
  if forceComplete ∧ job.status = .processing ∧
      job.totalItems ≤ job.completedItems + job.failedItems then
    updateJobStatus job (finalJobStatus job) now
  else
    job

/-- HandleJobStatus from cmd/main.go, over the stored record for the
requested id (`none` when the id is unknown). Returns the HTTP response
and the stored record afterwards (the force path is the only write). -/
def handleJobStatus (store : Option JobInfo) (forceComplete : Bool) (now : Int) :
    JobStatusResponse × Option JobInfo :=
  match store with
  | none => (.notFound, none)
  | some job =>
    let j := forceCompleteStep job forceComplete now
    if j.status = .completed ∨ j.status = .failed then
      (.okWithResults j.jobID j.status j.totalItems j.completedItems j.failedItems
        j.resultsList, some j)
    else if j.status = .processing ∧ j.totalItems ≤ j.completedItems + j.failedItems then
      (.okWithResults j.jobID j.status j.totalItems j.completedItems j.failedItems
        j.resultsList, some j)
    else
      (.acceptedNoResults j.jobID j.status j.totalItems j.completedItems j.failedItems,
        some j)

/-- Extraction of the force flag from the query string (cmd/main.go):
membership of the key force_complete in the parameter map, regardless of
its value; a nil map yields false. -/
def forceCompleteFlag (queryParams : Option (List (String × String))) : Bool :=
  match queryParams with
  | none => false
  | some ps => (ps.lookup "force_complete").isSome

/-- HandleJobStatus as invoked on a request carrying raw query
parameters. -/
def handleJobStatusReq (store : Option JobInfo)
    (queryParams : Option (List (String × String))) (now : Int) :
    JobStatusResponse × Option JobInfo :=
  handleJobStatus store (forceCompleteFlag queryParams) now

/-- The analyze request body (cmd/main.go ServerRequest); the per-resource
payloads are opaque strings here. -/
structure SubmitRequest where
  instances : List String
  s3Buckets : List String
  rdsInstances : List String
deriving DecidableEq

/-- The submission response: 400 on an empty batch, otherwise 202 with the
job id and total. -/
inductive SubmitResponse
  | badRequest
  | acceptedJob (jobID : String) (totalItems : Nat)
deriving DecidableEq

/-- A work item that reached the queue. -/
structure QueuedItem where
  jobID : String
  itemIndex : Nat
  itemType : String
deriving DecidableEq

/-- The resource_types list built by the submission handler. -/
def resourceTypesOf (req : SubmitRequest) : List String :=
  (if 0 < req.instances.length then ["ec2"] else []) ++
    (if 0 < req.s3Buckets.length then ["s3"] else []) ++
      (if 0 < req.rdsInstances.length then ["rds"] else [])

/-- The work items that reach the queue: one per resource with a global
sequential index (ec2 first, then s3, then rds); an item whose enqueue
fails (enqueueOk its index = false) is skipped, and later items are still
attempted. -/
def queuedItems (req : SubmitRequest) (jobID : String) (enqueueOk : Nat → Bool) :
    List QueuedItem :=
  (((List.range req.instances.length).filter (fun i => enqueueOk i)).map
      (fun i => ⟨jobID, i, "ec2"⟩)) ++
    (((List.range req.s3Buckets.length).filter
        (fun i => enqueueOk (req.instances.length + i))).map
      (fun i => ⟨jobID, req.instances.length + i, "s3"⟩)) ++
      (((List.range req.rdsInstances.length).filter
          (fun i => enqueueOk (req.instances.length + req.s3Buckets.length + i))).map
        (fun i => ⟨jobID, req.instances.length + req.s3Buckets.length + i, "rds"⟩))

/-- The submission path of Handler (cmd/main.go): reject an empty batch
with 400; otherwise create the job with the full resource count, enqueue
each item (logging and skipping enqueue failures without aborting), then
unconditionally flip the status to processing. Returns the HTTP response,
the job record in the store afterwards, and the queue contents. -/
def submitHandler (req : SubmitRequest) (jobID : String) (enqueueOk : Nat → Bool)
    (now : Int) : SubmitResponse × Option JobInfo × List QueuedItem :=
  let total := req.instances.length + req.s3Buckets.length + req.rdsInstances.length
  if total = 0 then
    (.badRequest, none, [])
  else
    let job := createJob jobID (resourceTypesOf req) total now
    let queued := queuedItems req jobID enqueueOk
    let job := updateJobStatus job .processing now
    (.acceptedJob jobID total, some job, queued)

/-- A store operation applied to a job record, as issued by workers and
the submitter. -/
inductive StoreOp
  | progress (success : Bool) (result : ReportItem) (encodeOk : Bool) (now : Int)
  | setStatus (status : JobStatus) (now : Int)
deriving DecidableEq

/-- Apply one store operation to a job record. -/
def applyOp (job : JobInfo) : StoreOp → JobInfo
  | .progress success result encodeOk now =>
    updateJobProgress job success result encodeOk now
  | .setStatus status now => updateJobStatus job status now

/-- Apply a sequence of store operations in order. -/
def runOps (job : JobInfo) (ops : List StoreOp) : JobInfo :=
  ops.foldl applyOp job

/-- The number of UpdateJobProgress calls in a sequence of operations. -/
def progressCount (ops : List StoreOp) : Nat :=
  ops.countP (fun op => match op with | .progress .. => true | _ => false)

/-- The progress sum completed_items + failed_items of a record. -/
def itemsSum (job : JobInfo) : Nat :=
  job.completedItems + job.failedItems

/-- A parsed GET /jobs/id response body as the CLI sees it
(cmd/cli/main.go): the status string, the three counters, and the results
array (empty when the field is absent or the raw payload is just an empty
array, which the code screens out with len of raw above 2). -/
structure PollResponse where
  status : String
  totalItems : Nat
  completedItems : Nat
  failedItems : Nat
  results : List ReportItem
deriving DecidableEq

/-- How pollForJobResults (cmd/cli/main.go) ends: a terminal status with
results in the body; results returned early because convergence holds; a
return after issuing the force_complete request; a return after the final
re-fetch on a non-processing status; or the poll-timeout error once
max_attempts are exhausted. -/
inductive PollOutcome
  | terminalResults (rs : List ReportItem)
  | earlyResults (rs : List ReportItem)
  | forcedReturn (rs : List ReportItem)
  | finalFetch (rs : List ReportItem)
  | pollTimeout
deriving DecidableEq

/-- One iteration per fuel unit of the polling loop in pollForJobResults
(cmd/cli/main.go). `responses` gives the body of the attempt-th normal
poll; `forceResults` is what the force_complete request would yield (the
empty list when that request fails or parses empty, in which case the code
returns an empty result set anyway); `finalResults` likewise for the final
re-fetch. State: the attempt number, lastCompletedItems and the
no-progress counter. -/
def pollLoopAux (responses : Nat → PollResponse)
    (forceResults finalResults : List ReportItem) :
    Nat → Nat → Nat → Nat → PollOutcome
  | 0, _, _, _ => .pollTimeout
  | fuel + 1, attempt, lastCompleted, noProgress =>
    let r := responses attempt
    if (r.status = "completed" ∨ r.status = "failed") ∧ r.results ≠ [] then
      .terminalResults r.results
    else if r.results ≠ [] ∧ (r.completedItems = r.totalItems ∨
        r.totalItems ≤ r.completedItems + r.failedItems) then
      .earlyResults r.results
    else if r.status = "processing" then
      if r.totalItems ≤ r.completedItems + r.failedItems then
        if 3 ≤ noProgress + 1 then
          .forcedReturn forceResults
        else
          pollLoopAux responses forceResults finalResults fuel (attempt + 1)
            lastCompleted (noProgress + 1)
      else
        if lastCompleted < r.completedItems then
          pollLoopAux responses forceResults finalResults fuel (attempt + 1)
            r.completedItems 0
        else
          pollLoopAux responses forceResults finalResults fuel (attempt + 1)
            lastCompleted noProgress
    else
      .finalFetch finalResults

/-- pollForJobResults (cmd/cli/main.go): run the loop for maxAttempts
iterations starting with zeroed lastCompletedItems and no-progress
counter. -/
def pollForJobResults (responses : Nat → PollResponse)
    (forceResults finalResults : List ReportItem) (maxAttempts : Nat) : PollOutcome :=
  pollLoopAux responses forceResults finalResults maxAttempts 0 0 0

/-- A concrete job record used as a test fixture. -/
def mkJob (status : JobStatus) (total completed failed : Nat)
    (results : Option (List ReportItem)) : JobInfo :=
  { jobID := "j1"
    status := status
    createdAt := 0
    updatedAt := 0
    completedAt := 0
    totalItems := total
    completedItems := completed
    failedItems := failed
    results := results
    resourceTypes := ["ec2"]
    expirationTime := 0 }

/-- A concrete non-empty report item used as a test fixture. -/
def rItem : ReportItem :=
  { resourceType := "ec2", payload := "i-1", analysis := "ok" }

/-- C4: UpdateJobProgress increments exactly one counter by exactly one
(completed_items on success, failed_items on failure) and appends the
result to results iff success holds and the result is non-empty,
initializing the stored list on the first append; total_items and status
are untouched. Also scenario A: a three-item job moved to processing and
given three successful results finalizes to completed with counters 3/0
and three stored results. Serialization of the result is assumed to
succeed, as it always does for the report type. -/
theorem updateJobProgress_spec :
    (∀ (job : JobInfo) (success : Bool) (result : ReportItem) (now : Int),
      (updateJobProgress job success result true now).completedItems
          = job.completedItems + (if success then 1 else 0) ∧
        (updateJobProgress job success result true now).failedItems
          = job.failedItems + (if success then 0 else 1) ∧
        (updateJobProgress job success result true now).results
          = (if success = true ∧ IsEmptyObject result = false then
              some (job.resultsList ++ [result])
            else job.results) ∧
        (updateJobProgress job success result true now).totalItems = job.totalItems ∧
        (updateJobProgress job success result true now).status = job.status) ∧
    ((updateJobStatus (createJob "j1" ["ec2"] 3 0) .processing 1).status
        = .processing ∧
      (finalizeWorkerCheck
        (updateJobProgress
          (updateJobProgress
            (updateJobProgress
              (updateJobStatus (createJob "j1" ["ec2"] 3 0) .processing 1)
              true rItem true 2)
            true rItem true 3)
          true rItem true 4) 5).status = .completed ∧
      (finalizeWorkerCheck
        (updateJobProgress
          (updateJobProgress
            (updateJobProgress
              (updateJobStatus (createJob "j1" ["ec2"] 3 0) .processing 1)
              true rItem true 2)
            true rItem true 3)
          true rItem true 4) 5).completedItems = 3 ∧
      (finalizeWorkerCheck
        (updateJobProgress
          (updateJobProgress
            (updateJobProgress
              (updateJobStatus (createJob "j1" ["ec2"] 3 0) .processing 1)
              true rItem true 2)
            true rItem true 3)
          true rItem true 4) 5).failedItems = 0 ∧
      (finalizeWorkerCheck
        (updateJobProgress
          (updateJobProgress
            (updateJobProgress
              (updateJobStatus (createJob "j1" ["ec2"] 3 0) .processing 1)
              true rItem true 2)
            true rItem true 3)
          true rItem true 4) 5).resultsList.length = 3) := by
  constructor
  · intro job success result now
    cases success with
    | false =>
      simp [updateJobProgress, updateJobProgressTrace]
    | true =>
      by_cases hEmpty : IsEmptyObject result = true
      · simp [updateJobProgress, updateJobProgressTrace, hEmpty]
      · cases hres : job.results with
        | none =>
          simp [updateJobProgress, updateJobProgressTrace, hEmpty, hres,
            JobInfo.resultsList, Bool.not_eq_true] at *
        | some rs =>
          simp [updateJobProgress, updateJobProgressTrace, hEmpty, hres,
            JobInfo.resultsList, Bool.not_eq_true] at *
  · decide

/-- C5 counterexample: on a successful outcome with a non-empty result,
UpdateJobProgress issues a GetItem (projecting the results attribute)
before its UpdateItem, so its store-call sequence is not one update with
no get. -/
theorem updateJobProgress_get_counterexample :
    (updateJobProgressTrace (mkJob .processing 3 0 0 none) true rItem true 1).2
        = [.getItem, .updateItem] ∧
      (updateJobProgressTrace (mkJob .processing 3 0 0 none) true rItem true 1).2.count
        .getItem = 1 := by
  decide

/-- C5 amended: every UpdateJobProgress call issues exactly one UpdateItem
(the counter increment and any append ride on that single update, never a
client-side read-modify-write of the counters), but the success path with
a non-empty result first issues exactly one GetItem to probe for the
results attribute; the failure and empty-result paths issue no get. -/
theorem updateJobProgress_calls_spec (job : JobInfo) (success : Bool)
    (result : ReportItem) (encodeOk : Bool) (now : Int) :
    (updateJobProgressTrace job success result encodeOk now).2.count .updateItem = 1 ∧
      (updateJobProgressTrace job success result encodeOk now).2.count .getItem
        = (if success = true ∧ IsEmptyObject result = false then 1 else 0) := by
  cases success with
  | false => simp [updateJobProgressTrace]
  | true =>
    by_cases hEmpty : IsEmptyObject result = true
    · simp [updateJobProgressTrace, hEmpty]
    · cases encodeOk with
      | false =>
        simp [updateJobProgressTrace, hEmpty, Bool.not_eq_true] at *
      | true =>
        simp [updateJobProgressTrace, hEmpty, Bool.not_eq_true] at *

/-- C6 counterexample: when the result cannot be serialized, the fallback
update increments completed_items and leaves failed_items untouched — the
item is counted as completed, not as failed. -/
theorem encodeFail_counts_completed_counterexample :
    (updateJobProgress (mkJob .processing 3 1 0 none) true rItem false 1).completedItems
        = 2 ∧
      (updateJobProgress (mkJob .processing 3 1 0 none) true rItem false 1).failedItems
        = 0 := by
  decide

/-- C6 amended: when a successfully analyzed result cannot be serialized,
the item is counted as a completed item without a stored result:
completed_items is incremented by one, failed_items is unchanged, and
nothing is appended to results. -/
theorem encodeFail_spec (job : JobInfo) (result : ReportItem) (now : Int)
    (h : IsEmptyObject result = false) :
    (updateJobProgress job true result false now).completedItems
        = job.completedItems + 1 ∧
      (updateJobProgress job true result false now).failedItems = job.failedItems ∧
      (updateJobProgress job true result false now).results = job.results := by
  simp [updateJobProgress, updateJobProgressTrace, h]

/-- C6 amended witness at a concrete job and result. -/
theorem encodeFail_spec_witness :
    IsEmptyObject rItem = false ∧
      ((updateJobProgress (mkJob .pending 2 0 0 none) true rItem false 5).completedItems
          = (mkJob .pending 2 0 0 none).completedItems + 1 ∧
        (updateJobProgress (mkJob .pending 2 0 0 none) true rItem false 5).failedItems
          = (mkJob .pending 2 0 0 none).failedItems ∧
        (updateJobProgress (mkJob .pending 2 0 0 none) true rItem false 5).results
          = (mkJob .pending 2 0 0 none).results) :=
  ⟨by decide, encodeFail_spec (mkJob .pending 2 0 0 none) rItem 5 (by decide)⟩

/-- C1 counterexample: on a converged processing job with
failed_items = total_items = 0 the finalization check writes completed,
although failed_items equals total_items — so finalization is not
"Failed iff failed_items == total_items". -/
theorem finalize_zero_total_counterexample :
    (finalizeWorkerCheck (mkJob .processing 0 0 0 none) 1).status = .completed ∧
      (mkJob .processing 0 0 0 none).failedItems
        = (mkJob .processing 0 0 0 none).totalItems := by
  decide

/-- C1 amended: for a job read back as processing, when convergence does
not hold both the worker finalization check and the server force-complete
path leave the record unchanged; when convergence holds they finalize,
leaving the counters unchanged and setting status to Failed iff
failed_items is positive and equal to total_items, else Completed, and the
server's force path writes exactly the worker's finalization result. -/
theorem finalization_check_spec (job : JobInfo) (now : Int)
    (h : job.status = .processing) :
    (if job.completedItems + job.failedItems < job.totalItems then
      finalizeWorkerCheck job now = job ∧
        (handleJobStatus (some job) true now).2 = some job
    else
      ((finalizeWorkerCheck job now).status = .failed ↔
          (0 < job.failedItems ∧ job.failedItems = job.totalItems)) ∧
        ((finalizeWorkerCheck job now).status = .failed ∨
          (finalizeWorkerCheck job now).status = .completed) ∧
        (finalizeWorkerCheck job now).completedItems = job.completedItems ∧
        (finalizeWorkerCheck job now).failedItems = job.failedItems ∧
        (finalizeWorkerCheck job now).totalItems = job.totalItems ∧
        (handleJobStatus (some job) true now).2 = some (finalizeWorkerCheck job now)) := by
  by_cases hconv : job.completedItems + job.failedItems < job.totalItems
  · rw [if_pos hconv]
    have hw : finalizeWorkerCheck job now = job := by
      unfold finalizeWorkerCheck
      rw [if_neg]
      omega
    have hf : forceCompleteStep job true now = job := by
      unfold forceCompleteStep
      rw [if_neg]
      intro hc
      omega
    refine ⟨hw, ?_⟩
    simp only [handleJobStatus, hf, h]
    split
    · simp at *
    · split <;> rfl
  · rw [if_neg hconv]
    have hguard : job.totalItems ≤ job.completedItems + job.failedItems ∧
        job.status ≠ .completed ∧ job.status ≠ .failed := by
      refine ⟨by omega, ?_, ?_⟩ <;> simp [h]
    have hw : finalizeWorkerCheck job now
        = updateJobStatus job (finalJobStatus job) now := by
      unfold finalizeWorkerCheck
      rw [if_pos hguard]
    have hf : forceCompleteStep job true now
        = updateJobStatus job (finalJobStatus job) now := by
      unfold forceCompleteStep
      rw [if_pos ⟨rfl, h, by omega⟩]
    have hstat : (updateJobStatus job (finalJobStatus job) now).status
        = finalJobStatus job := by
      unfold updateJobStatus
      split <;> rfl
    have hcnt : (updateJobStatus job (finalJobStatus job) now).completedItems
          = job.completedItems ∧
        (updateJobStatus job (finalJobStatus job) now).failedItems = job.failedItems ∧
        (updateJobStatus job (finalJobStatus job) now).totalItems = job.totalItems := by
      unfold updateJobStatus
      split <;> exact ⟨rfl, rfl, rfl⟩
    refine ⟨?_, ?_, ?_, ?_, ?_, ?_⟩
    · rw [hw, hstat]
      unfold finalJobStatus
      split
      · rename_i hcond
        exact iff_of_true rfl hcond
      · rename_i hcond
        exact iff_of_false (by simp) hcond
    · rw [hw, hstat]
      unfold finalJobStatus
      split
      · exact Or.inl rfl
      · exact Or.inr rfl
    · rw [hw]; exact hcnt.1
    · rw [hw]; exact hcnt.2.1
    · rw [hw]; exact hcnt.2.2
    · simp only [handleJobStatus, hf, hw]
      have hterm : (updateJobStatus job (finalJobStatus job) now).status = .completed ∨
          (updateJobStatus job (finalJobStatus job) now).status = .failed := by
        rw [hstat]
        unfold finalJobStatus
        split
        · exact Or.inr rfl
        · exact Or.inl rfl
      rw [if_pos hterm]

/-- C1 amended witness: a converged two-item processing job with one
failure finalizes to completed with its counters intact. -/
theorem finalization_check_spec_witness :
    (mkJob .processing 2 1 1 none).status = .processing ∧
      (if (mkJob .processing 2 1 1 none).completedItems
            + (mkJob .processing 2 1 1 none).failedItems
            < (mkJob .processing 2 1 1 none).totalItems then
        finalizeWorkerCheck (mkJob .processing 2 1 1 none) 7 = mkJob .processing 2 1 1 none ∧
          (handleJobStatus (some (mkJob .processing 2 1 1 none)) true 7).2
            = some (mkJob .processing 2 1 1 none)
      else
        ((finalizeWorkerCheck (mkJob .processing 2 1 1 none) 7).status = .failed ↔
            (0 < (mkJob .processing 2 1 1 none).failedItems ∧
              (mkJob .processing 2 1 1 none).failedItems
                = (mkJob .processing 2 1 1 none).totalItems)) ∧
          ((finalizeWorkerCheck (mkJob .processing 2 1 1 none) 7).status = .failed ∨
            (finalizeWorkerCheck (mkJob .processing 2 1 1 none) 7).status = .completed) ∧
          (finalizeWorkerCheck (mkJob .processing 2 1 1 none) 7).completedItems
            = (mkJob .processing 2 1 1 none).completedItems ∧
          (finalizeWorkerCheck (mkJob .processing 2 1 1 none) 7).failedItems
            = (mkJob .processing 2 1 1 none).failedItems ∧
          (finalizeWorkerCheck (mkJob .processing 2 1 1 none) 7).totalItems
            = (mkJob .processing 2 1 1 none).totalItems ∧
          (handleJobStatus (some (mkJob .processing 2 1 1 none)) true 7).2
            = some (finalizeWorkerCheck (mkJob .processing 2 1 1 none) 7)) :=
  ⟨by decide, finalization_check_spec (mkJob .processing 2 1 1 none) 7 (by decide)⟩

/-- C2 counterexample: UpdateJobStatus applied to a completed job with
target processing overwrites the status — a transition attempt on a
terminal job is not a no-op and does not leave the record unchanged. -/
theorem terminal_overwrite_counterexample :
    (updateJobStatus (mkJob .completed 3 3 0 none) .processing 5).status
        = .processing ∧
      (mkJob .completed 3 3 0 none).status = .completed ∧
      updateJobStatus (mkJob .completed 3 3 0 none) .processing 5
        ≠ mkJob .completed 3 3 0 none := by
  decide

/-- C2 amended: the worker finalization check and the server force path
are no-ops on jobs they read back as terminal (their guard is the
pre-read status), but the underlying UpdateJobStatus write is
unconditional: it always installs the requested status, so the store
itself does not make transition attempts on terminal jobs no-ops. -/
theorem terminal_guard_spec (job : JobInfo) (s : JobStatus) (now : Int)
    (h : job.status = .completed ∨ job.status = .failed) :
    finalizeWorkerCheck job now = job ∧
      (handleJobStatus (some job) true now).2 = some job ∧
      (handleJobStatus (some job) false now).2 = some job ∧
      (updateJobStatus job s now).status = s := by
  have hw : finalizeWorkerCheck job now = job := by
    unfold finalizeWorkerCheck
    rw [if_neg]
    intro hc
    rcases h with h | h <;> simp [h] at hc
  have hproc : ¬ job.status = .processing := by
    rcases h with h | h <;> simp [h]
  have hf : ∀ b, forceCompleteStep job b now = job := by
    intro b
    unfold forceCompleteStep
    rw [if_neg]
    intro hc
    exact hproc hc.2.1
  have hterm : job.status = .completed ∨ job.status = .failed := h
  refine ⟨hw, ?_, ?_, ?_⟩
  · simp only [handleJobStatus, hf]
    rw [if_pos hterm]
  · simp only [handleJobStatus, hf]
    rw [if_pos hterm]
  · unfold updateJobStatus
    split <;> rfl

/-- C2 amended witness at a concrete completed job. -/
theorem terminal_guard_spec_witness :
    ((mkJob .completed 2 2 0 none).status = .completed ∨
        (mkJob .completed 2 2 0 none).status = .failed) ∧
      (finalizeWorkerCheck (mkJob .completed 2 2 0 none) 9 = mkJob .completed 2 2 0 none ∧
        (handleJobStatus (some (mkJob .completed 2 2 0 none)) true 9).2
          = some (mkJob .completed 2 2 0 none) ∧
        (handleJobStatus (some (mkJob .completed 2 2 0 none)) false 9).2
          = some (mkJob .completed 2 2 0 none) ∧
        (updateJobStatus (mkJob .completed 2 2 0 none) .processing 9).status
          = .processing) :=
  ⟨by decide, terminal_guard_spec (mkJob .completed 2 2 0 none) .processing 9 (by decide)⟩

/-- Every UpdateJobProgress call adds exactly one to the progress sum. -/
theorem itemsSum_updateJobProgress (job : JobInfo) (success : Bool)
    (result : ReportItem) (encodeOk : Bool) (now : Int) :
    itemsSum (updateJobProgress job success result encodeOk now) = itemsSum job + 1 := by
  cases success with
  | false =>
    simp [itemsSum, updateJobProgress, updateJobProgressTrace]
    omega
  | true =>
    by_cases hEmpty : IsEmptyObject result = true
    · simp [itemsSum, updateJobProgress, updateJobProgressTrace, hEmpty]
      omega
    · cases encodeOk with
      | false =>
        simp [itemsSum, updateJobProgress, updateJobProgressTrace, hEmpty,
          Bool.not_eq_true] at *
        omega
      | true =>
        simp [itemsSum, updateJobProgress, updateJobProgressTrace, hEmpty,
          Bool.not_eq_true] at *
        omega

/-- UpdateJobStatus never touches the counters or total. -/
theorem counters_updateJobStatus (job : JobInfo) (s : JobStatus) (now : Int) :
    itemsSum (updateJobStatus job s now) = itemsSum job ∧
      (updateJobStatus job s now).totalItems = job.totalItems := by
  unfold updateJobStatus
  split <;> exact ⟨rfl, rfl⟩

/-- Applying one store operation adds the operation's progress weight to
the sum and preserves total_items. -/
theorem itemsSum_applyOp (job : JobInfo) (op : StoreOp) :
    itemsSum (applyOp job op)
        = itemsSum job + (match op with | .progress .. => 1 | _ => 0) ∧
      (applyOp job op).totalItems = job.totalItems := by
  cases op with
  | progress success result encodeOk now =>
    refine ⟨itemsSum_updateJobProgress job success result encodeOk now, ?_⟩
    show (updateJobProgress job success result encodeOk now).totalItems = job.totalItems
    cases success with
    | false => simp [updateJobProgress, updateJobProgressTrace]
    | true =>
      by_cases hEmpty : IsEmptyObject result = true
      · simp [updateJobProgress, updateJobProgressTrace, hEmpty]
      · cases encodeOk with
        | false =>
          simp [updateJobProgress, updateJobProgressTrace, hEmpty, Bool.not_eq_true] at *
        | true =>
          simp [updateJobProgress, updateJobProgressTrace, hEmpty, Bool.not_eq_true] at *
  | setStatus s now =>
    simpa using counters_updateJobStatus job s now

/-- Over a whole sequence of store operations the progress sum grows by
exactly the number of UpdateJobProgress calls, and total_items never
changes. -/
theorem itemsSum_runOps (ops : List StoreOp) :
    ∀ job : JobInfo, itemsSum (runOps job ops) = itemsSum job + progressCount ops ∧
      (runOps job ops).totalItems = job.totalItems := by
  induction ops with
  | nil =>
    intro job
    simp [runOps, progressCount]
  | cons op ops ih =>
    intro job
    have hstep := itemsSum_applyOp job op
    have hrest := ih (applyOp job op)
    have hrun : runOps job (op :: ops) = runOps (applyOp job op) ops := rfl
    constructor
    · rw [hrun, hrest.1, hstep.1]
      cases op with
      | progress success result encodeOk now =>
        simp [progressCount, List.countP_cons]
        omega
      | setStatus s now =>
        simp [progressCount, List.countP_cons]
    · rw [hrun, hrest.2, hstep.2]

/-- C3 counterexample: a one-item job that receives two progress updates
(as at-least-once delivery permits) reaches a progress sum of 2 with
total_items = 1, exceeding the claimed bound. -/
theorem progress_sum_exceeds_total_counterexample :
    itemsSum (runOps (createJob "j1" ["ec2"] 1 0)
        [.progress true rItem true 1, .progress true rItem true 2]) = 2 ∧
      (runOps (createJob "j1" ["ec2"] 1 0)
        [.progress true rItem true 1, .progress true rItem true 2]).totalItems = 1 := by
  decide

/-- C3 amended: over every sequence of store operations the progress sum
completed_items + failed_items is non-decreasing and grows by exactly the
number of UpdateJobProgress calls while total_items never changes; the
bound sum ≤ total_items is not enforced by the store — starting from a
fresh job it holds precisely because at most total_items progress calls
are applied (one per item), and redelivered items can exceed it. -/
theorem progress_sum_spec :
    (∀ (job : JobInfo) (ops : List StoreOp),
      itemsSum (runOps job ops) = itemsSum job + progressCount ops ∧
        (runOps job ops).totalItems = job.totalItems ∧
        itemsSum job ≤ itemsSum (runOps job ops)) ∧
    (∀ (jobID : String) (types : List String) (n : Nat) (t0 : Int) (ops : List StoreOp),
      progressCount ops ≤ n →
        itemsSum (runOps (createJob jobID types n t0) ops)
          ≤ (runOps (createJob jobID types n t0) ops).totalItems) := by
  constructor
  · intro job ops
    have hr := itemsSum_runOps ops job
    exact ⟨hr.1, hr.2, by omega⟩
  · intro jobID types n t0 ops hle
    have hr := itemsSum_runOps ops (createJob jobID types n t0)
    have h0 : itemsSum (createJob jobID types n t0) = 0 := rfl
    have ht : (createJob jobID types n t0).totalItems = n := rfl
    omega

/-- C3 amended witness: one progress call on a fresh one-item job keeps
the sum within total_items. -/
theorem progress_sum_spec_witness :
    progressCount [.progress true rItem true 1] ≤ 1 ∧
      itemsSum (runOps (createJob "j1" ["ec2"] 1 0) [.progress true rItem true 1])
        ≤ (runOps (createJob "j1" ["ec2"] 1 0) [.progress true rItem true 1]).totalItems :=
  ⟨by decide, progress_sum_spec.2 "j1" ["ec2"] 1 0 [.progress true rItem true 1] (by decide)⟩

/-- The force-complete step can only rewrite status and timestamps; the
identity, counters and total of the record are untouched. -/
theorem forceCompleteStep_fields (job : JobInfo) (f : Bool) (now : Int) :
    (forceCompleteStep job f now).jobID = job.jobID ∧
      (forceCompleteStep job f now).totalItems = job.totalItems ∧
      (forceCompleteStep job f now).completedItems = job.completedItems ∧
      (forceCompleteStep job f now).failedItems = job.failedItems := by
  unfold forceCompleteStep updateJobStatus
  split
  · split <;> exact ⟨rfl, rfl, rfl, rfl⟩
  · exact ⟨rfl, rfl, rfl, rfl⟩

/-- C8: GET /jobs/id returns 404 for an unknown id; for a known job the
body always carries job_id, status, total_items, completed_items and
failed_items, the results field is present exactly when the reported
status is terminal or when convergence holds with the status still
processing, and the code is 200 exactly when results are present,
202 otherwise. -/
theorem handleJobStatus_spec (job : JobInfo) (f : Bool) (now : Int) :
    (handleJobStatus none f now).1 = .notFound ∧
      (handleJobStatus (some job) f now).1.bodyJobID = some job.jobID ∧
      (handleJobStatus (some job) f now).1.bodyStatus
        = some (forceCompleteStep job f now).status ∧
      (handleJobStatus (some job) f now).1.bodyTotal = some job.totalItems ∧
      (handleJobStatus (some job) f now).1.bodyCompleted = some job.completedItems ∧
      (handleJobStatus (some job) f now).1.bodyFailed = some job.failedItems ∧
      ((handleJobStatus (some job) f now).1.hasResults = true ↔
        ((forceCompleteStep job f now).status = .completed ∨
          (forceCompleteStep job f now).status = .failed ∨
          ((forceCompleteStep job f now).status = .processing ∧
            job.totalItems ≤ job.completedItems + job.failedItems))) ∧
      (handleJobStatus (some job) f now).1.code
        = (if (handleJobStatus (some job) f now).1.hasResults then 200 else 202) := by
  have hfield := forceCompleteStep_fields job f now
  refine ⟨rfl, ?_⟩
  by_cases hterm : (forceCompleteStep job f now).status = .completed ∨
      (forceCompleteStep job f now).status = .failed
  · have heq : handleJobStatus (some job) f now
        = (.okWithResults (forceCompleteStep job f now).jobID
            (forceCompleteStep job f now).status
            (forceCompleteStep job f now).totalItems
            (forceCompleteStep job f now).completedItems
            (forceCompleteStep job f now).failedItems
            (forceCompleteStep job f now).resultsList,
          some (forceCompleteStep job f now)) := by
      show (if (forceCompleteStep job f now).status = .completed ∨
          (forceCompleteStep job f now).status = .failed then _ else _) = _
      rw [if_pos hterm]
    rw [heq]
    refine ⟨?_, rfl, ?_, ?_, ?_, ?_, ?_⟩
    · simp [JobStatusResponse.bodyJobID, hfield.1]
    · simp [JobStatusResponse.bodyTotal, hfield.2.1]
    · simp [JobStatusResponse.bodyCompleted, hfield.2.2.1]
    · simp [JobStatusResponse.bodyFailed, hfield.2.2.2]
    · exact iff_of_true rfl (by tauto)
    · rfl
  · by_cases hproc : (forceCompleteStep job f now).status = .processing ∧
        (forceCompleteStep job f now).totalItems
          ≤ (forceCompleteStep job f now).completedItems
            + (forceCompleteStep job f now).failedItems
    · have heq : handleJobStatus (some job) f now
          = (.okWithResults (forceCompleteStep job f now).jobID
              (forceCompleteStep job f now).status
              (forceCompleteStep job f now).totalItems
              (forceCompleteStep job f now).completedItems
              (forceCompleteStep job f now).failedItems
              (forceCompleteStep job f now).resultsList,
            some (forceCompleteStep job f now)) := by
        show (if (forceCompleteStep job f now).status = .completed ∨
            (forceCompleteStep job f now).status = .failed then _ else _) = _
        rw [if_neg hterm, if_pos hproc]
      rw [heq]
      refine ⟨?_, rfl, ?_, ?_, ?_, ?_, ?_⟩
      · simp [JobStatusResponse.bodyJobID, hfield.1]
      · simp [JobStatusResponse.bodyTotal, hfield.2.1]
      · simp [JobStatusResponse.bodyCompleted, hfield.2.2.1]
      · simp [JobStatusResponse.bodyFailed, hfield.2.2.2]
      · refine iff_of_true rfl (Or.inr (Or.inr ⟨hproc.1, ?_⟩))
        have hc := hproc.2
        rw [hfield.2.1, hfield.2.2.1, hfield.2.2.2] at hc
        exact hc
      · rfl
    · have heq : handleJobStatus (some job) f now
          = (.acceptedNoResults (forceCompleteStep job f now).jobID
              (forceCompleteStep job f now).status
              (forceCompleteStep job f now).totalItems
              (forceCompleteStep job f now).completedItems
              (forceCompleteStep job f now).failedItems,
            some (forceCompleteStep job f now)) := by
        show (if (forceCompleteStep job f now).status = .completed ∨
            (forceCompleteStep job f now).status = .failed then _ else _) = _
        rw [if_neg hterm, if_neg hproc]
      rw [heq]
      refine ⟨?_, rfl, ?_, ?_, ?_, ?_, ?_⟩
      · simp [JobStatusResponse.bodyJobID, hfield.1]
      · simp [JobStatusResponse.bodyTotal, hfield.2.1]
      · simp [JobStatusResponse.bodyCompleted, hfield.2.2.1]
      · simp [JobStatusResponse.bodyFailed, hfield.2.2.2]
      · refine iff_of_false (by simp [JobStatusResponse.hasResults]) ?_
        intro hcontra
        rcases hcontra with hc | hc | hc
        · exact hterm (Or.inl hc)
        · exact hterm (Or.inr hc)
        · refine hproc ⟨hc.1, ?_⟩
          rw [hfield.2.1, hfield.2.2.1, hfield.2.2.2]
          exact hc.2
      · rfl

/-- C9 counterexample: submitting a two-instance batch whose first enqueue
fails yields a job with total_items = 2 and failed_items = 0 while only
the second item reaches the queue — total_items is not decremented and the
skipped item is not tracked as failed, so neither correcting action is
taken. -/
theorem submit_skip_no_correction_counterexample :
    ((submitHandler ⟨["i0", "i1"], [], []⟩ "j1" (fun i => decide (i ≠ 0)) 0).2.1.map
        JobInfo.totalItems = some 2) ∧
      ((submitHandler ⟨["i0", "i1"], [], []⟩ "j1" (fun i => decide (i ≠ 0)) 0).2.1.map
        JobInfo.failedItems = some 0) ∧
      (submitHandler ⟨["i0", "i1"], [], []⟩ "j1" (fun i => decide (i ≠ 0)) 0).2.2
        = [⟨"j1", 1, "ec2"⟩] := by
  decide

/-- C9 amended: a per-item enqueue failure is skipped without aborting the
batch — every item whose enqueue succeeds is still queued — but no
correcting action follows: the job keeps total_items equal to the full
batch size, its failed_items counter stays zero, and the skipped items
simply never reach the queue. -/
theorem submit_skip_spec (req : SubmitRequest) (jobID : String)
    (enqueueOk : Nat → Bool) (now : Int)
    (h : req.instances.length + req.s3Buckets.length + req.rdsInstances.length ≠ 0) :
    ∃ job : JobInfo, (submitHandler req jobID enqueueOk now).2.1 = some job ∧
      job.totalItems
          = req.instances.length + req.s3Buckets.length + req.rdsInstances.length ∧
      job.completedItems = 0 ∧
      job.failedItems = 0 ∧
      job.status = .processing ∧
      (∀ q ∈ (submitHandler req jobID enqueueOk now).2.2, enqueueOk q.itemIndex = true) ∧
      (∀ i, i < req.instances.length → enqueueOk i = true →
        (⟨jobID, i, "ec2"⟩ : QueuedItem) ∈ (submitHandler req jobID enqueueOk now).2.2) := by
  have hq : (submitHandler req jobID enqueueOk now).2.2
      = queuedItems req jobID enqueueOk := by
    unfold submitHandler
    rw [if_neg h]
  refine ⟨updateJobStatus
      (createJob jobID (resourceTypesOf req)
        (req.instances.length + req.s3Buckets.length + req.rdsInstances.length) now)
      .processing now, ?_, ?_, ?_, ?_, ?_, ?_, ?_⟩
  · unfold submitHandler
    rw [if_neg h]
  · simp [updateJobStatus, createJob]
  · simp [updateJobStatus, createJob]
  · simp [updateJobStatus, createJob]
  · simp [updateJobStatus, createJob]
  · intro q hm
    rw [hq] at hm
    simp only [queuedItems, List.mem_append, List.mem_map, List.mem_filter,
      List.mem_range] at hm
    rcases hm with (⟨i, ⟨hi, hok⟩, rfl⟩ | ⟨i, ⟨hi, hok⟩, rfl⟩) | ⟨i, ⟨hi, hok⟩, rfl⟩ <;>
      exact hok
  · intro i hi hok
    rw [hq]
    simp only [queuedItems, List.mem_append, List.mem_map, List.mem_filter,
      List.mem_range]
    exact Or.inl (Or.inl ⟨i, ⟨hi, hok⟩, rfl⟩)

/-- C9 amended witness at a concrete two-item batch with one failing
enqueue. -/
theorem submit_skip_spec_witness :
    ((["i0", "i1"] : List String).length + ([] : List String).length
        + ([] : List String).length ≠ 0) ∧
      (∃ job : JobInfo,
        (submitHandler ⟨["i0", "i1"], [], []⟩ "j1" (fun i => decide (1 ≤ i)) 0).2.1
            = some job ∧
          job.totalItems
              = (["i0", "i1"] : List String).length + ([] : List String).length
                + ([] : List String).length ∧
          job.completedItems = 0 ∧
          job.failedItems = 0 ∧
          job.status = .processing ∧
          (∀ q ∈ (submitHandler ⟨["i0", "i1"], [], []⟩ "j1"
              (fun i => decide (1 ≤ i)) 0).2.2, decide (1 ≤ q.itemIndex) = true) ∧
          (∀ i, i < (["i0", "i1"] : List String).length → decide (1 ≤ i) = true →
            (⟨"j1", i, "ec2"⟩ : QueuedItem) ∈ (submitHandler ⟨["i0", "i1"], [], []⟩ "j1"
              (fun i => decide (1 ≤ i)) 0).2.2)) :=
  ⟨by decide, submit_skip_spec ⟨["i0", "i1"], [], []⟩ "j1" (fun i => decide (1 ≤ i)) 0
    (by decide)⟩

/-- C10: the forced-completion behaviour of GET /jobs/id is keyed on the
mere presence of the force_complete query parameter: any request whose
query string contains the key — whatever its value — is handled exactly
like one with the flag set. -/
theorem forceComplete_presence_spec (store : Option JobInfo)
    (ps : List (String × String)) (now : Int)
    (h : (ps.lookup "force_complete").isSome = true) :
    handleJobStatusReq store (some ps) now = handleJobStatus store true now ∧
      forceCompleteFlag (some ps) = true := by
  have hflag : forceCompleteFlag (some ps) = true := h
  constructor
  · unfold handleJobStatusReq
    rw [hflag]
  · exact hflag

/-- C10 witness: force_complete=false is treated exactly like
force_complete=true. -/
theorem forceComplete_presence_spec_witness :
    ((([("force_complete", "false")] : List (String × String)).lookup
        "force_complete").isSome = true) ∧
      (handleJobStatusReq (some (mkJob .processing 2 1 1 none))
          (some [("force_complete", "false")]) 3
          = handleJobStatus (some (mkJob .processing 2 1 1 none)) true 3 ∧
        forceCompleteFlag (some [("force_complete", "false")]) = true) :=
  ⟨by decide, forceComplete_presence_spec (some (mkJob .processing 2 1 1 none))
    [("force_complete", "false")] 3 (by decide)⟩

/-- If the polling loop returns through the forced-completion path, the
run contains at least 3 − noProgress distinct polls (beyond the credit
already accumulated in the no-progress counter) that showed status
processing with convergence reached. -/
theorem pollLoopAux_forced (responses : Nat → PollResponse)
    (forceResults finalResults : List ReportItem) :
    ∀ (fuel attempt lastCompleted noProgress : Nat) (rs : List ReportItem),
      pollLoopAux responses forceResults finalResults fuel attempt lastCompleted
          noProgress = .forcedReturn rs →
      ∃ l : List Nat, l.Pairwise (· < ·) ∧ 3 ≤ noProgress + l.length ∧
        ∀ i ∈ l, attempt ≤ i ∧ i < attempt + fuel ∧
          (responses i).status = "processing" ∧
          (responses i).totalItems
            ≤ (responses i).completedItems + (responses i).failedItems := by
  intro fuel
  induction fuel with
  | zero =>
    intro attempt lastCompleted noProgress rs h
    simp [pollLoopAux] at h
  | succ n ih =>
    intro attempt lastCompleted noProgress rs h
    simp only [pollLoopAux] at h
    split_ifs at h with h1 h2 h3 h4 h5
    · refine ⟨[attempt], by simp, by simpa using h5, ?_⟩
      intro i hi
      simp only [List.mem_singleton] at hi
      subst hi
      exact ⟨Nat.le_refl _, by omega, h3, h4⟩
    · obtain ⟨l, hpw, hlen, hmem⟩ := ih (attempt + 1) lastCompleted (noProgress + 1) rs h
      refine ⟨attempt :: l, ?_, by simp only [List.length_cons]; omega, ?_⟩
      · rw [List.pairwise_cons]
        exact ⟨fun a ha => by have := (hmem a ha).1; omega, hpw⟩
      · intro i hi
        rcases List.mem_cons.mp hi with hi | hi
        · subst hi
          exact ⟨Nat.le_refl _, by omega, h3, h4⟩
        · obtain ⟨hle, hlt, hs, hc⟩ := hmem i hi
          exact ⟨by omega, by omega, hs, hc⟩
    · obtain ⟨l, hpw, hlen, hmem⟩ := ih (attempt + 1) (responses attempt).completedItems 0 rs h
      refine ⟨l, hpw, by omega, ?_⟩
      intro i hi
      obtain ⟨hle, hlt, hs, hc⟩ := hmem i hi
      exact ⟨by omega, by omega, hs, hc⟩
    · obtain ⟨l, hpw, hlen, hmem⟩ := ih (attempt + 1) lastCompleted noProgress rs h
      refine ⟨l, hpw, by omega, ?_⟩
      intro i hi
      obtain ⟨hle, hlt, hs, hc⟩ := hmem i hi
      exact ⟨by omega, by omega, hs, hc⟩

/-- While every poll shows a still-unconverged processing job with no
results payload, the loop keeps polling and ends in the timeout error
once its attempts are exhausted. -/
theorem pollLoopAux_timeout (responses : Nat → PollResponse)
    (forceResults finalResults : List ReportItem)
    (h : ∀ i, (responses i).status = "processing" ∧
      (responses i).completedItems + (responses i).failedItems
        < (responses i).totalItems ∧
      (responses i).results = ([] : List ReportItem)) :
    ∀ (fuel attempt lastCompleted noProgress : Nat),
      pollLoopAux responses forceResults finalResults fuel attempt lastCompleted
        noProgress = .pollTimeout := by
  intro fuel
  induction fuel with
  | zero =>
    intro attempt lastCompleted noProgress
    rfl
  | succ n ih =>
    intro attempt lastCompleted noProgress
    obtain ⟨hs, hc, hres⟩ := h attempt
    simp only [pollLoopAux]
    have hc1 : ¬(((responses attempt).status = "completed" ∨
        (responses attempt).status = "failed") ∧
        (responses attempt).results ≠ []) := by
      simp [hres]
    have hc2 : ¬((responses attempt).results ≠ [] ∧
        ((responses attempt).completedItems = (responses attempt).totalItems ∨
          (responses attempt).totalItems
            ≤ (responses attempt).completedItems + (responses attempt).failedItems)) := by
      simp [hres]
    have hc4 : ¬((responses attempt).totalItems
        ≤ (responses attempt).completedItems + (responses attempt).failedItems) := by
      omega
    rw [if_neg hc1, if_neg hc2, if_pos hs, if_neg hc4]
    split
    · exact ih (attempt + 1) (responses attempt).completedItems 0
    · exact ih (attempt + 1) lastCompleted noProgress

/-- A server stream in which the job reads back converged with counters
still advancing on every poll (as at-least-once redelivery permits) while
the status stays processing and no results payload is returned. -/
def movingStream (i : Nat) : PollResponse :=
  { status := "processing"
    totalItems := 3
    completedItems := 3 + i
    failedItems := 0
    results := [] }

/-- C7 counterexample: against a stream whose counters move on every
consecutive pair of polls, the loop still issues the forced-completion
request on its third poll — so it does not wait for 3 consecutive polls
with no counter movement. -/
theorem pollLoop_moving_counters_counterexample :
    pollForJobResults movingStream [] [] 60 = .forcedReturn [] ∧
      (movingStream 0).completedItems = 3 ∧
      (movingStream 1).completedItems = 4 ∧
      (movingStream 2).completedItems = 5 ∧
      (movingStream 0).status = "processing" ∧
      (movingStream 1).status = "processing" ∧
      (movingStream 2).status = "processing" ∧
      (movingStream 0).totalItems
        ≤ (movingStream 0).completedItems + (movingStream 0).failedItems ∧
      (movingStream 1).totalItems
        ≤ (movingStream 1).completedItems + (movingStream 1).failedItems ∧
      (movingStream 2).totalItems
        ≤ (movingStream 2).completedItems + (movingStream 2).failedItems := by
  decide

/-- C7 amended: the polling loop never issues the forced-completion
request before at least 3 polls (not necessarily consecutive, and with no
check on counter movement between converged polls) have shown convergence
with status still processing; on a stream stuck that way with no results
payload it issues the request on its third poll; and when every poll
shows an unconverged processing job it exhausts max_attempts and returns
the poll-timeout error without retrying. -/
theorem pollLoop_force_spec :
    (∀ (responses : Nat → PollResponse) (forceResults finalResults rs : List ReportItem)
      (maxAttempts : Nat),
      pollForJobResults responses forceResults finalResults maxAttempts
          = .forcedReturn rs →
      ∃ l : List Nat, l.Pairwise (· < ·) ∧ 3 ≤ l.length ∧
        ∀ i ∈ l, i < maxAttempts ∧ (responses i).status = "processing" ∧
          (responses i).totalItems
            ≤ (responses i).completedItems + (responses i).failedItems) ∧
    (pollForJobResults
        (fun _ => ⟨"processing", 3, 3, 0, []⟩) [] [] 60 = .forcedReturn [] ∧
      pollForJobResults
        (fun _ => ⟨"processing", 3, 3, 0, []⟩) [] [] 2 = .pollTimeout) ∧
    (∀ (responses : Nat → PollResponse) (forceResults finalResults : List ReportItem)
      (maxAttempts : Nat),
      (∀ i, (responses i).status = "processing" ∧
        (responses i).completedItems + (responses i).failedItems
          < (responses i).totalItems ∧
        (responses i).results = ([] : List ReportItem)) →
      pollForJobResults responses forceResults finalResults maxAttempts
        = .pollTimeout) := by
  refine ⟨?_, by decide, ?_⟩
  · intro responses forceResults finalResults rs maxAttempts h
    obtain ⟨l, hpw, hlen, hmem⟩ :=
      pollLoopAux_forced responses forceResults finalResults maxAttempts 0 0 0 rs h
    refine ⟨l, hpw, by omega, ?_⟩
    intro i hi
    obtain ⟨_, hlt, hs, hc⟩ := hmem i hi
    exact ⟨by omega, hs, hc⟩
  · intro responses forceResults finalResults maxAttempts h
    exact pollLoopAux_timeout responses forceResults finalResults h maxAttempts 0 0 0

/-- C7 amended witness: a stream of unconverged processing polls runs to
the attempt limit and yields the poll-timeout error. -/
theorem pollLoop_force_spec_witness :
    pollForJobResults (fun _ => ⟨"processing", 2, 1, 0, []⟩) [] [] 4 = .pollTimeout := by
  refine pollLoop_force_spec.2.2 (fun _ => ⟨"processing", 2, 1, 0, []⟩) [] [] 4 ?_
  intro i
  refine ⟨rfl, ?_, rfl⟩
  show (1 : Nat) + 0 < 2
  decide

end GreenOps
